import Mathlib

/-!
Verification of the access-key lifecycle core of `streamlit_key_gate.py`.

The Python module keeps one SQLite table `access_keys`; each row is a
credential record.  We embed the table as a list of records (most recently
inserted first, matching the admin listing's `ORDER BY id DESC`), with the
AUTOINCREMENT primary key modelled by a `next_id` counter.  Timestamps are
modelled as natural numbers (seconds); the wall clock `_now()` becomes an
explicit `now` argument.  The SHA-256 digest `_hash_key` is opaque to all
lifecycle logic, so it is a parameter `hashKey : String → String`; the
`UNIQUE` constraint on `key_hash` is what the code relies on, not any
property of SHA-256 itself.  The random source `secrets.choice(alphabet)`
becomes a parameter `choice : Nat → Char` giving the n-th drawn character.
-/

namespace KeyGate

/-- A row of the `access_keys` table created by `_connect`. -/
structure KeyRecord where
  id : Nat
  key_hash : String
  raw_hint : String
  issued_to : Option String
  tag : Option String
  is_one_time : Bool
  issued_at : Nat
  expires_at : Option Nat
  used_count : Nat
  last_used_at : Option Nat
  is_revoked : Bool
  deriving Repr, DecidableEq

/-- The persisted store: the `access_keys` table plus the AUTOINCREMENT
counter.  `records` is ordered most recently inserted first. -/
structure Store where
  records : List KeyRecord
  next_id : Nat
  deriving Repr, DecidableEq

/-- Rejection reasons of `_verify_and_mark_usage`, one per distinct
user-facing error message returned by the Python function. -/
inductive RejectReason where
  | EmptyInput
  | InvalidCredential
  | Revoked
  | Expired
  | AlreadyUsed
  deriving Repr, DecidableEq

/-- Outcome of a verification call: the `(ok, msg)` pair of
`_verify_and_mark_usage`, with the messages abstracted to reason codes. -/
inductive VerifyResult where
  | Accepted
  | Rejected (reason : RejectReason)
  deriving Repr, DecidableEq

/-- Lookup `SELECT ... FROM access_keys WHERE key_hash=?` followed by
`fetchone()`: the record with the given hash, if any (the `UNIQUE`
constraint keeps at most one). -/
def find_by_hash (h : String) (s : Store) : Option KeyRecord :=
  s.records.find? (fun r => r.key_hash == h)

/-- Effect of `UPDATE access_keys SET used_count = used_count + 1,
last_used_at = ? WHERE id = ?` on a single row. -/
def bumpUsage (key_id used_at : Nat) (r : KeyRecord) : KeyRecord :=
  if r.id = key_id then
    { r with used_count := r.used_count + 1, last_used_at := some used_at }
  else r

/-- The usage-recording `UPDATE` statement of `_verify_and_mark_usage`. -/
def increment_usage (key_id used_at : Nat) (s : Store) : Store :=
  { s with records := s.records.map (bumpUsage key_id used_at) }

/-- Expiry test of `_verify_and_mark_usage`: rejected when `expires_at`
is present and `_now() > exp_dt` (strict). -/
def isExpired (now : Nat) (r : KeyRecord) : Bool :=
  match r.expires_at with
  | some e => decide (e < now)
  | none => false

/-- Translation of `_verify_and_mark_usage(raw_key)`.  The checks run in
the source's order: empty input, hash lookup, revoked flag, expiry; then
the usage `UPDATE` runs unconditionally, and only afterwards the one-time
exhaustion test compares the *pre-update* `used_count` against 1. -/
def verify_and_mark_usage (hashKey : String → String) (now : Nat)
    (raw_key : String) (s : Store) : VerifyResult × Store :=
  if raw_key = "" then (.Rejected .EmptyInput, s)
  else
    match find_by_hash (hashKey raw_key) s with
    | none => (.Rejected .InvalidCredential, s)
    | some r =>
      if r.is_revoked then (.Rejected .Revoked, s)
      else if isExpired now r then (.Rejected .Expired, s)
      else
        let s' := increment_usage r.id now s
        if r.is_one_time && decide (1 ≤ r.used_count) then
          (.Rejected .AlreadyUsed, s')
        else (.Accepted, s')

/-- The display hint `f"{raw[:3]}…{raw[-3:]}"` built by `_issue_keys`. -/
def hintOf (raw : String) : String := raw.take 3 ++ "…" ++ raw.takeRight 3

/-- The `issued_to.strip() or None` normalisation used by `_issue_keys`. -/
def optText (t : String) : Option String :=
  if t.trim = "" then none else some t.trim

/-- One element of the DataFrame returned by `_issue_keys` (the only
place the plaintext `access_key` ever appears). -/
structure IssuedRow where
  access_key : String
  hint : String
  issued_to : String
  tag : String
  is_one_time : Bool
  expires_at : Option Nat
  deriving Repr, DecidableEq

/-- One iteration of the issuance loop of `_issue_keys`: the `INSERT`
guarded by the `UNIQUE` constraint on `key_hash`.  A duplicate hash makes
the `INSERT` raise `sqlite3.IntegrityError`, which the loop answers with
`continue`: no row is stored, no entry is appended, the unit is lost. -/
def issue_unit (hashKey : String → String) (now : Nat) (is_one_time : Bool)
    (tag issued_to : String) (expires_at : Option Nat) (raw : String)
    (s : Store) : Option IssuedRow × Store :=
  let h := hashKey raw
  let hint := hintOf raw
  if s.records.any (fun r => r.key_hash == h) then (none, s)
  else
    let row : KeyRecord :=
      { id := s.next_id, key_hash := h, raw_hint := hint,
        issued_to := optText issued_to, tag := optText tag,
        is_one_time := is_one_time, issued_at := now,
        expires_at := expires_at, used_count := 0,
        last_used_at := none, is_revoked := false }
    (some { access_key := raw, hint := hint, issued_to := issued_to,
            tag := tag, is_one_time := is_one_time, expires_at := expires_at },
     { records := row :: s.records, next_id := s.next_id + 1 })

/-- The issuance loop of `_issue_keys`, with the stream of generated
plaintexts made explicit: `raws` lists the outcome of the `count` calls
to `_generate_readable_key()`, so `raws.length` is the requested count. -/
def issue_keys (hashKey : String → String) (now : Nat) (is_one_time : Bool)
    (tag issued_to : String) (expires_at : Option Nat) :
    List String → Store → List IssuedRow × Store
  | [], s => ([], s)
  | raw :: rest, s =>
    match issue_unit hashKey now is_one_time tag issued_to expires_at raw s with
    | (none, s') => issue_keys hashKey now is_one_time tag issued_to expires_at rest s'
    | (some row, s') =>
      let p := issue_keys hashKey now is_one_time tag issued_to expires_at rest s'
      (row :: p.1, p.2)

/-- Expiry computation of `_issue_keys`: `days = 0` means no expiry,
otherwise `_now() + timedelta(days=days)` (a day being 86400 seconds). -/
def expiryFromDays (now days : Nat) : Option Nat :=
  if 0 < days then some (now + days * 86400) else none

/-- The three operations of the admin selectbox handled by `_operate_key`. -/
inductive KeyAction where
  | Revoke
  | Reinstate
  | Delete
  deriving Repr, DecidableEq

/-- Result of `_operate_key`: the `"OK: ..."` message or the
`"対象IDが見つかりません。"` (id not found) message. -/
inductive OpResult where
  | Ok
  | NotFound
  deriving Repr, DecidableEq

/-- Effect of `UPDATE access_keys SET is_revoked=? WHERE id=?` on one row. -/
def setRevokedFlag (target_id : Nat) (value : Bool) (r : KeyRecord) : KeyRecord :=
  if r.id = target_id then { r with is_revoked := value } else r

/-- The revoke / reinstate `UPDATE` of `_operate_key`. -/
def set_revoked (target_id : Nat) (value : Bool) (s : Store) : Store :=
  { s with records := s.records.map (setRevokedFlag target_id value) }

/-- The `DELETE FROM access_keys WHERE id=?` of `_operate_key`. -/
def delete_key (target_id : Nat) (s : Store) : Store :=
  { s with records := s.records.filter (fun r => r.id != target_id) }

/-- Translation of `_operate_key(target_id, action)`: first the existence
probe `SELECT id ... WHERE id=?`, then the chosen statement. -/
def operate_key (target_id : Nat) (action : KeyAction) (s : Store) :
    OpResult × Store :=
  if s.records.any (fun r => r.id == target_id) then
    match action with
    | .Revoke => (.Ok, set_revoked target_id true s)
    | .Reinstate => (.Ok, set_revoked target_id false s)
    | .Delete => (.Ok, delete_key target_id s)
  else (.NotFound, s)

/-- A row of the admin listing `SELECT id, raw_hint, ... ORDER BY id DESC`
in `admin_panel`: every column except `key_hash`, no plaintext. -/
structure ListedRow where
  id : Nat
  raw_hint : String
  issued_to : Option String
  tag : Option String
  is_one_time : Bool
  issued_at : Nat
  expires_at : Option Nat
  used_count : Nat
  last_used_at : Option Nat
  is_revoked : Bool
  deriving Repr, DecidableEq

/-- The admin listing of `admin_panel` (records are already stored most
recently created first, matching `ORDER BY id DESC`). -/
def list_keys (s : Store) : List ListedRow :=
  s.records.map (fun r =>
    { id := r.id, raw_hint := r.raw_hint, issued_to := r.issued_to,
      tag := r.tag, is_one_time := r.is_one_time, issued_at := r.issued_at,
      expires_at := r.expires_at, used_count := r.used_count,
      last_used_at := r.last_used_at, is_revoked := r.is_revoked })

/-- The alphabet of `_generate_readable_key` (`I`, `O`, `0`, `1` removed). -/
def alphabet : String := "ABCDEFGHJKLMNPQRSTUVWXYZ23456789"

/-- Translation of `_generate_readable_key()`: four groups of four
characters joined by dashes, where `choice n` is the n-th value returned
by `secrets.choice(alphabet)`. -/
def generate_readable_key (choice : Nat → Char) : String :=
  String.intercalate "-" ((List.range 4).map (fun g =>
    String.mk ((List.range 4).map (fun j => choice (4 * g + j)))))

/-- Snapshot captured by the `SELECT` at the top of
`_verify_and_mark_usage`: the columns the later code still uses after
the cursor row has been fetched. -/
structure VerifySnapshot where
  key_id : Nat
  is_one_time : Bool
  used_count : Nat
  deriving Repr, DecidableEq

/-- Read phase of `_verify_and_mark_usage`: everything up to and
including the expiry check runs against the fetched row and writes
nothing.  `inl` is an early rejection, `inr` the snapshot handed to the
write phase. -/
def verify_read (hashKey : String → String) (now : Nat) (raw_key : String)
    (s : Store) : VerifyResult ⊕ VerifySnapshot :=
  if raw_key = "" then .inl (.Rejected .EmptyInput)
  else
    match find_by_hash (hashKey raw_key) s with
    | none => .inl (.Rejected .InvalidCredential)
    | some r =>
      if r.is_revoked then .inl (.Rejected .Revoked)
      else if isExpired now r then .inl (.Rejected .Expired)
      else .inr { key_id := r.id, is_one_time := r.is_one_time,
                  used_count := r.used_count }

/-- Write phase of `_verify_and_mark_usage`: the usage `UPDATE` followed
by the one-time test, which reads `used_count` from the snapshot taken by
the earlier `SELECT`, not from the updated row. -/
def verify_write (now : Nat) (snap : VerifySnapshot) (s : Store) :
    VerifyResult × Store :=
  let s' := increment_usage snap.key_id now s
  if snap.is_one_time && decide (1 ≤ snap.used_count) then
    (.Rejected .AlreadyUsed, s')
  else (.Accepted, s')

/-- A sequence of verification calls of the same plaintext, one per
element of `ts` (the clock reading of each call), threading the store. -/
def verify_seq (hashKey : String → String) (raw_key : String) :
    List Nat → Store → List VerifyResult × Store
  | [], s => ([], s)
  | t :: ts, s =>
    let p := verify_and_mark_usage hashKey t raw_key s
    let q := verify_seq hashKey raw_key ts p.2
    (p.1 :: q.1, q.2)

/-- Concrete fixture: a freshly issued one-time credential. -/
def recOT : KeyRecord :=
  { id := 1, key_hash := "KEY1-AAAA-BBBB-CCCC", raw_hint := "KEY…CCC",
    issued_to := none, tag := none, is_one_time := true, issued_at := 0,
    expires_at := none, used_count := 0, last_used_at := none,
    is_revoked := false }

/-- Concrete fixture: a store holding only `recOT`. -/
def storeOT : Store := { records := [recOT], next_id := 2 }

/-- Concrete fixture: a revoked multi-use credential that is also past
its expiry. -/
def recRev : KeyRecord :=
  { id := 1, key_hash := "KEY2-DDDD-EEEE-FFFF", raw_hint := "KEY…FFF",
    issued_to := none, tag := none, is_one_time := false, issued_at := 0,
    expires_at := some 10, used_count := 0, last_used_at := none,
    is_revoked := true }

/-- Concrete fixture: a store holding only `recRev`. -/
def storeRev : Store := { records := [recRev], next_id := 2 }

/-- Concrete fixture: a multi-use, never-expiring credential. -/
def recMU : KeyRecord :=
  { id := 1, key_hash := "KEY3-GGGG-HHHH-JJJJ", raw_hint := "KEY…JJJ",
    issued_to := none, tag := none, is_one_time := false, issued_at := 0,
    expires_at := none, used_count := 0, last_used_at := none,
    is_revoked := false }

/-- Concrete fixture: a store holding only `recMU`. -/
def storeMU : Store := { records := [recMU], next_id := 2 }

theorem bumpUsage_id (kid t : Nat) (r : KeyRecord) : (bumpUsage kid t r).id = r.id := by
  unfold bumpUsage; split <;> rfl

theorem bumpUsage_key_hash (kid t : Nat) (r : KeyRecord) :
    (bumpUsage kid t r).key_hash = r.key_hash := by
  unfold bumpUsage; split <;> rfl

theorem bumpUsage_is_one_time (kid t : Nat) (r : KeyRecord) :
    (bumpUsage kid t r).is_one_time = r.is_one_time := by
  unfold bumpUsage; split <;> rfl

theorem bumpUsage_is_revoked (kid t : Nat) (r : KeyRecord) :
    (bumpUsage kid t r).is_revoked = r.is_revoked := by
  unfold bumpUsage; split <;> rfl

theorem bumpUsage_expires_at (kid t : Nat) (r : KeyRecord) :
    (bumpUsage kid t r).expires_at = r.expires_at := by
  unfold bumpUsage; split <;> rfl

theorem setRevokedFlag_id (tid : Nat) (b : Bool) (r : KeyRecord) :
    (setRevokedFlag tid b r).id = r.id := by
  unfold setRevokedFlag; split <;> rfl

theorem setRevokedFlag_key_hash (tid : Nat) (b : Bool) (r : KeyRecord) :
    (setRevokedFlag tid b r).key_hash = r.key_hash := by
  unfold setRevokedFlag; split <;> rfl

theorem setRevokedFlag_is_one_time (tid : Nat) (b : Bool) (r : KeyRecord) :
    (setRevokedFlag tid b r).is_one_time = r.is_one_time := by
  unfold setRevokedFlag; split <;> rfl

theorem setRevokedFlag_used_count (tid : Nat) (b : Bool) (r : KeyRecord) :
    (setRevokedFlag tid b r).used_count = r.used_count := by
  unfold setRevokedFlag; split <;> rfl

theorem setRevokedFlag_expires_at (tid : Nat) (b : Bool) (r : KeyRecord) :
    (setRevokedFlag tid b r).expires_at = r.expires_at := by
  unfold setRevokedFlag; split <;> rfl

theorem find_by_hash_increment (h : String) (kid t : Nat) (s : Store) :
    find_by_hash h (increment_usage kid t s) =
      (find_by_hash h s).map (bumpUsage kid t) := by
  unfold find_by_hash increment_usage
  rw [List.find?_map]
  have hp : ((fun r : KeyRecord => r.key_hash == h) ∘ bumpUsage kid t) =
      (fun r : KeyRecord => r.key_hash == h) := by
    funext r; simp [Function.comp, bumpUsage_key_hash]
  rw [hp]

theorem find_by_hash_set_revoked (h : String) (tid : Nat) (b : Bool) (s : Store) :
    find_by_hash h (set_revoked tid b s) =
      (find_by_hash h s).map (setRevokedFlag tid b) := by
  unfold find_by_hash set_revoked
  rw [List.find?_map]
  have hp : ((fun r : KeyRecord => r.key_hash == h) ∘ setRevokedFlag tid b) =
      (fun r : KeyRecord => r.key_hash == h) := by
    funext r; simp [Function.comp, setRevokedFlag_key_hash]
  rw [hp]

theorem isExpired_eq_of_expires_at (t : Nat) {r r' : KeyRecord}
    (h : r'.expires_at = r.expires_at) : isExpired t r' = isExpired t r := by
  unfold isExpired; rw [h]

theorem verify_found (hashKey : String → String) (now : Nat) (raw : String)
    (s : Store) (r : KeyRecord)
    (hne : raw ≠ "") (hfind : find_by_hash (hashKey raw) s = some r)
    (hrev : r.is_revoked = false) (hexp : isExpired now r = false) :
    verify_and_mark_usage hashKey now raw s =
      (if r.is_one_time && decide (1 ≤ r.used_count) then .Rejected .AlreadyUsed
       else .Accepted, increment_usage r.id now s) := by
  unfold verify_and_mark_usage
  rw [if_neg hne, hfind]
  simp only [hrev, hexp, if_false, Bool.false_eq_true]
  split <;> rfl

theorem verify_found_accepts (hashKey : String → String) (now : Nat)
    (raw : String) (s : Store) (r : KeyRecord)
    (hne : raw ≠ "") (hfind : find_by_hash (hashKey raw) s = some r)
    (hrev : r.is_revoked = false) (hexp : isExpired now r = false)
    (hcond : (r.is_one_time && decide (1 ≤ r.used_count)) = false) :
    verify_and_mark_usage hashKey now raw s =
      (.Accepted, increment_usage r.id now s) := by
  rw [verify_found hashKey now raw s r hne hfind hrev hexp]
  simp [hcond]

theorem verify_found_exhausted (hashKey : String → String) (now : Nat)
    (raw : String) (s : Store) (r : KeyRecord)
    (hne : raw ≠ "") (hfind : find_by_hash (hashKey raw) s = some r)
    (hrev : r.is_revoked = false) (hexp : isExpired now r = false)
    (hcond : (r.is_one_time && decide (1 ≤ r.used_count)) = true) :
    verify_and_mark_usage hashKey now raw s =
      (.Rejected .AlreadyUsed, increment_usage r.id now s) := by
  rw [verify_found hashKey now raw s r hne hfind hrev hexp]
  simp [hcond]

theorem bumpUsage_self (kid t : Nat) (r : KeyRecord) (h : r.id = kid) :
    bumpUsage kid t r =
      { r with used_count := r.used_count + 1, last_used_at := some t } := by
  unfold bumpUsage; rw [if_pos h]

theorem verify_seq_exhausted (hashKey : String → String) (raw : String)
    (ts : List Nat) :
    ∀ (s : Store) (r : KeyRecord), raw ≠ "" →
      find_by_hash (hashKey raw) s = some r →
      r.is_one_time = true → r.is_revoked = false → 1 ≤ r.used_count →
      (∀ t ∈ ts, isExpired t r = false) →
      (verify_seq hashKey raw ts s).1 = ts.map (fun _ => .Rejected .AlreadyUsed)
      ∧ ∃ r', find_by_hash (hashKey raw) (verify_seq hashKey raw ts s).2 = some r'
            ∧ r'.used_count = r.used_count + ts.length := by
  induction ts with
  | nil =>
    intro s r hne hfind hone hrev hcnt hts
    exact ⟨rfl, r, hfind, rfl⟩
  | cons t ts ih =>
    intro s r hne hfind hone hrev hcnt hts
    have hexp : isExpired t r = false := hts t (List.mem_cons_self t ts)
    have hcond : (r.is_one_time && decide (1 ≤ r.used_count)) = true := by
      rw [hone]; simp [hcnt]
    have hver := verify_found_exhausted hashKey t raw s r hne hfind hrev hexp hcond
    have hfind1 : find_by_hash (hashKey raw) (increment_usage r.id t s) =
        some { r with used_count := r.used_count + 1, last_used_at := some t } := by
      rw [find_by_hash_increment, hfind, Option.map_some']
      rw [bumpUsage_self r.id t r rfl]
    have hih := ih (increment_usage r.id t s)
      { r with used_count := r.used_count + 1, last_used_at := some t }
      hne hfind1 hone hrev (by show 1 ≤ r.used_count + 1; omega)
      (fun u hu => hts u (List.mem_cons_of_mem t hu))
    have hstep : verify_seq hashKey raw (t :: ts) s =
        ((.Rejected .AlreadyUsed) ::
           (verify_seq hashKey raw ts (increment_usage r.id t s)).1,
         (verify_seq hashKey raw ts (increment_usage r.id t s)).2) := by
      simp only [verify_seq, hver]
    rw [hstep]
    refine ⟨?_, ?_⟩
    · simp only [List.map_cons]
      exact congrArg _ hih.1
    · obtain ⟨r', hr1, hr2⟩ := hih.2
      have hr2' : r'.used_count = r.used_count + 1 + ts.length := hr2
      exact ⟨r', hr1, by simp only [List.length_cons]; omega⟩

theorem verify_seq_multi_use (hashKey : String → String) (raw : String)
    (ts : List Nat) :
    ∀ (s : Store) (r : KeyRecord), raw ≠ "" →
      find_by_hash (hashKey raw) s = some r →
      r.is_one_time = false → r.is_revoked = false →
      (∀ t ∈ ts, isExpired t r = false) →
      (verify_seq hashKey raw ts s).1 = ts.map (fun _ => .Accepted) := by
  induction ts with
  | nil => intro s r hne hfind hone hrev hts; rfl
  | cons t ts ih =>
    intro s r hne hfind hone hrev hts
    have hexp : isExpired t r = false := hts t (List.mem_cons_self t ts)
    have hcond : (r.is_one_time && decide (1 ≤ r.used_count)) = false := by
      rw [hone]; rfl
    have hver := verify_found_accepts hashKey t raw s r hne hfind hrev hexp hcond
    have hfind1 : find_by_hash (hashKey raw) (increment_usage r.id t s) =
        some { r with used_count := r.used_count + 1, last_used_at := some t } := by
      rw [find_by_hash_increment, hfind, Option.map_some']
      rw [bumpUsage_self r.id t r rfl]
    have hih := ih (increment_usage r.id t s)
      { r with used_count := r.used_count + 1, last_used_at := some t }
      hne hfind1 hone hrev
      (fun u hu => hts u (List.mem_cons_of_mem t hu))
    have hstep : verify_seq hashKey raw (t :: ts) s =
        ((.Accepted) ::
           (verify_seq hashKey raw ts (increment_usage r.id t s)).1,
         (verify_seq hashKey raw ts (increment_usage r.id t s)).2) := by
      simp only [verify_seq, hver]
    rw [hstep]
    simp only [List.map_cons]
    exact congrArg _ hih

/-- C2: verification applies its checks in the source's fixed order and
returns the reason of the first failing check — empty input is rejected as
`EmptyInput`; an unknown hash as `InvalidCredential`; a revoked credential
is rejected as `Revoked` with no expiry hypothesis at all, hence in
particular also when it is past its expiry; and a non-revoked credential
carrying an expiry is rejected as `Expired` exactly when the clock
strictly exceeds `expires_at`. -/
theorem C2_verify_check_order (hashKey : String → String) (now : Nat)
    (raw : String) (s : Store) :
    (verify_and_mark_usage hashKey now "" s = (.Rejected .EmptyInput, s))
  ∧ (raw ≠ "" → find_by_hash (hashKey raw) s = none →
      verify_and_mark_usage hashKey now raw s = (.Rejected .InvalidCredential, s))
  ∧ (∀ r, raw ≠ "" → find_by_hash (hashKey raw) s = some r →
      r.is_revoked = true →
      verify_and_mark_usage hashKey now raw s = (.Rejected .Revoked, s))
  ∧ (∀ r e, raw ≠ "" → find_by_hash (hashKey raw) s = some r →
      r.is_revoked = false → r.expires_at = some e →
      ((verify_and_mark_usage hashKey now raw s).1 = .Rejected .Expired ↔ e < now)) := by
  refine ⟨?_, ?_, ?_, ?_⟩
  · unfold verify_and_mark_usage; simp
  · intro hne hfind
    unfold verify_and_mark_usage
    rw [if_neg hne, hfind]
  · intro r hne hfind hrev
    unfold verify_and_mark_usage
    rw [if_neg hne, hfind]
    simp [hrev]
  · intro r e hne hfind hrev hea
    by_cases hlt : e < now
    · have hexp : isExpired now r = true := by
        unfold isExpired; rw [hea]; simpa
      have : verify_and_mark_usage hashKey now raw s = (.Rejected .Expired, s) := by
        unfold verify_and_mark_usage
        rw [if_neg hne, hfind]
        simp [hrev, hexp]
      rw [this]
      simpa using hlt
    · have hexp : isExpired now r = false := by
        unfold isExpired; rw [hea]; simp; omega
      refine iff_of_false ?_ hlt
      rw [verify_found hashKey now raw s r hne hfind hrev hexp]
      split <;> simp

/-- C2 witness: the credential `recRev` is both revoked and past its
expiry (`expires_at = 10`, verified at time 100), and the revocation check
wins: the call is rejected as `Revoked` and the store is untouched. -/
theorem C2_verify_check_order_witness :
    verify_and_mark_usage (fun t => t) 100 "KEY2-DDDD-EEEE-FFFF" storeRev =
      (.Rejected .Revoked, storeRev) :=
  (C2_verify_check_order (fun t => t) 100 "KEY2-DDDD-EEEE-FFFF" storeRev).2.2.1
    recRev (by decide) (by decide) rfl

/-- C9: a verification that is rejected for any reason other than
`AlreadyUsed` leaves the store exactly as it was — no record is touched,
created or removed; contrapositively, a call that changed the store
returned `Accepted` or `Rejected AlreadyUsed`. -/
theorem C9_reject_no_write (hashKey : String → String) (now : Nat)
    (raw : String) (s : Store) :
    (∀ reason, (verify_and_mark_usage hashKey now raw s).1 = .Rejected reason →
       reason ≠ .AlreadyUsed → (verify_and_mark_usage hashKey now raw s).2 = s)
  ∧ ((verify_and_mark_usage hashKey now raw s).2 ≠ s →
       (verify_and_mark_usage hashKey now raw s).1 = .Accepted ∨
       (verify_and_mark_usage hashKey now raw s).1 = .Rejected .AlreadyUsed) := by
  unfold verify_and_mark_usage
  by_cases h0 : raw = ""
  · simp [h0]
  · simp only [if_neg h0]
    cases hf : find_by_hash (hashKey raw) s with
    | none => simp
    | some r =>
      by_cases hrev : r.is_revoked = true
      · simp [hrev]
      · simp only [hrev, if_false]
        by_cases hexp : isExpired now r = true
        · simp [hexp]
        · simp only [hexp, if_false]
          by_cases hcond : (r.is_one_time && decide (1 ≤ r.used_count)) = true
          · simp [hcond]
          · simp [hcond]

/-- C9 witness: verifying the empty string against `storeOT` is rejected
as `EmptyInput` and leaves the store unchanged. -/
theorem C9_reject_no_write_witness :
    (verify_and_mark_usage (fun t => t) 0 "" storeOT).2 = storeOT :=
  (C9_reject_no_write (fun t => t) 0 "" storeOT).1 .EmptyInput (by decide) (by decide)

/-- C1: for a one-time, unrevoked, unexpired credential, every
verification with its plaintext rewrites the store to the incremented one
(counter +1 and `last_used_at` stamped) before the exhaustion check, and
the outcome is `Accepted` exactly when the pre-increment `used_count` was
0 and `Rejected AlreadyUsed` exactly when it was ≥ 1; consequently a
fresh one-time credential is accepted once, its counter then reads
exactly 1, and each later presentation is rejected as `AlreadyUsed`
while the counter keeps growing to `1 + ts.length`. -/
theorem C1_one_time_law (hashKey : String → String) (now : Nat)
    (ts : List Nat) (raw : String) (s : Store) (r : KeyRecord)
    (hne : raw ≠ "") (hfind : find_by_hash (hashKey raw) s = some r)
    (hone : r.is_one_time = true) (hrev : r.is_revoked = false)
    (hexp : isExpired now r = false)
    (hts : ∀ t ∈ ts, isExpired t r = false) :
    ((verify_and_mark_usage hashKey now raw s).2 = increment_usage r.id now s)
  ∧ ((verify_and_mark_usage hashKey now raw s).1 = .Accepted ↔ r.used_count = 0)
  ∧ ((verify_and_mark_usage hashKey now raw s).1 = .Rejected .AlreadyUsed ↔
       1 ≤ r.used_count)
  ∧ (r.used_count = 0 →
       verify_and_mark_usage hashKey now raw s = (.Accepted, increment_usage r.id now s)
     ∧ find_by_hash (hashKey raw) (increment_usage r.id now s) =
         some { r with used_count := 1, last_used_at := some now }
     ∧ (verify_seq hashKey raw ts (increment_usage r.id now s)).1 =
         ts.map (fun _ => .Rejected .AlreadyUsed)
     ∧ ∃ r', find_by_hash (hashKey raw)
           (verify_seq hashKey raw ts (increment_usage r.id now s)).2 = some r'
         ∧ r'.used_count = 1 + ts.length) := by
  have hv := verify_found hashKey now raw s r hne hfind hrev hexp
  refine ⟨by rw [hv], ?_, ?_, ?_⟩
  · rw [hv]
    by_cases hc : 1 ≤ r.used_count
    · have hb : (r.is_one_time && decide (1 ≤ r.used_count)) = true := by
        rw [hone]; simpa
      rw [hb]; simp; omega
    · have hb : (r.is_one_time && decide (1 ≤ r.used_count)) = false := by
        rw [hone]; simp; omega
      rw [hb]; simp; omega
  · rw [hv]
    by_cases hc : 1 ≤ r.used_count
    · have hb : (r.is_one_time && decide (1 ≤ r.used_count)) = true := by
        rw [hone]; simpa
      rw [hb]; simpa
    · have hb : (r.is_one_time && decide (1 ≤ r.used_count)) = false := by
        rw [hone]; simp; omega
      rw [hb]; simp; omega
  · intro hfresh
    have hcond : (r.is_one_time && decide (1 ≤ r.used_count)) = false := by
      rw [hone, hfresh]; rfl
    have hacc := verify_found_accepts hashKey now raw s r hne hfind hrev hexp hcond
    have hfind1 : find_by_hash (hashKey raw) (increment_usage r.id now s) =
        some { r with used_count := 1, last_used_at := some now } := by
      rw [find_by_hash_increment, hfind, Option.map_some']
      rw [bumpUsage_self r.id now r rfl, hfresh]
    have hseq := verify_seq_exhausted hashKey raw ts
      (increment_usage r.id now s)
      { r with used_count := 1, last_used_at := some now }
      hne hfind1 hone hrev (by show 1 ≤ 1; omega)
      (fun u hu => hts u hu)
    exact ⟨hacc, hfind1, hseq.1, hseq.2⟩

/-- C1 witness: the fresh one-time credential of `storeOT` is accepted on
its first presentation; the single later presentation listed in `ts = [1]`
is rejected as already used. -/
theorem C1_one_time_law_witness :
    (verify_seq (fun t => t) "KEY1-AAAA-BBBB-CCCC" [1]
        (increment_usage 1 0 storeOT)).1 = [.Rejected .AlreadyUsed] :=
  (((C1_one_time_law (fun t => t) 0 [1] "KEY1-AAAA-BBBB-CCCC" storeOT recOT
      (by decide) (by decide) rfl rfl rfl (by decide)).2.2.2) rfl).2.2.1

/-- C7: a multi-use credential (`one_time = false`) that is not revoked
and whose expiry has not passed at any of the call times is accepted by
every one of an arbitrarily long sequence of verifications of its
plaintext. -/
theorem C7_multi_use_always_accepts (hashKey : String → String)
    (ts : List Nat) (raw : String) (s : Store) (r : KeyRecord)
    (hne : raw ≠ "") (hfind : find_by_hash (hashKey raw) s = some r)
    (hone : r.is_one_time = false) (hrev : r.is_revoked = false)
    (hts : ∀ t ∈ ts, isExpired t r = false) :
    (verify_seq hashKey raw ts s).1 = ts.map (fun _ => .Accepted) :=
  verify_seq_multi_use hashKey raw ts s r hne hfind hone hrev hts

/-- C7 witness: three successive verifications of the multi-use
credential of `storeMU` all come back `Accepted`. -/
theorem C7_multi_use_always_accepts_witness :
    (verify_seq (fun t => t) "KEY3-GGGG-HHHH-JJJJ" [0, 1, 2] storeMU).1 =
      [.Accepted, .Accepted, .Accepted] :=
  C7_multi_use_always_accepts (fun t => t) [0, 1, 2] "KEY3-GGGG-HHHH-JJJJ"
    storeMU recMU (by decide) (by decide) rfl rfl (by decide)

theorem issue_keys_cons_dup (hashKey : String → String) (now : Nat)
    (is_one_time : Bool) (tag issued_to : String) (expires_at : Option Nat)
    (raw : String) (rest : List String) (s : Store)
    (hdup : s.records.any (fun q => q.key_hash == hashKey raw) = true) :
    issue_keys hashKey now is_one_time tag issued_to expires_at (raw :: rest) s =
      issue_keys hashKey now is_one_time tag issued_to expires_at rest s := by
  simp only [issue_keys, issue_unit, hdup, if_true]

theorem issue_keys_cons_new (hashKey : String → String) (now : Nat)
    (is_one_time : Bool) (tag issued_to : String) (expires_at : Option Nat)
    (raw : String) (rest : List String) (s : Store)
    (hdup : s.records.any (fun q => q.key_hash == hashKey raw) = false) :
    issue_keys hashKey now is_one_time tag issued_to expires_at (raw :: rest) s =
      (({ access_key := raw, hint := hintOf raw, issued_to := issued_to,
          tag := tag, is_one_time := is_one_time,
          expires_at := expires_at } : IssuedRow) ::
         (issue_keys hashKey now is_one_time tag issued_to expires_at rest
           { records :=
               { id := s.next_id, key_hash := hashKey raw, raw_hint := hintOf raw,
                 issued_to := optText issued_to, tag := optText tag,
                 is_one_time := is_one_time, issued_at := now,
                 expires_at := expires_at, used_count := 0,
                 last_used_at := none, is_revoked := false } :: s.records,
             next_id := s.next_id + 1 }).1,
       (issue_keys hashKey now is_one_time tag issued_to expires_at rest
           { records :=
               { id := s.next_id, key_hash := hashKey raw, raw_hint := hintOf raw,
                 issued_to := optText issued_to, tag := optText tag,
                 is_one_time := is_one_time, issued_at := now,
                 expires_at := expires_at, used_count := 0,
                 last_used_at := none, is_revoked := false } :: s.records,
             next_id := s.next_id + 1 }).2) := by
  simp only [issue_keys, issue_unit, hdup, Bool.false_eq_true, if_false]

theorem issue_keys_mono (hashKey : String → String) (now : Nat)
    (is_one_time : Bool) (tag issued_to : String) (expires_at : Option Nat)
    (raws : List String) :
    ∀ (s : Store) (q : KeyRecord), q ∈ s.records →
      q ∈ (issue_keys hashKey now is_one_time tag issued_to expires_at raws s).2.records := by
  induction raws with
  | nil => intro s q hq; exact hq
  | cons raw rest ih =>
    intro s q hq
    by_cases hdup : s.records.any (fun p => p.key_hash == hashKey raw) = true
    · rw [issue_keys_cons_dup hashKey now is_one_time tag issued_to expires_at
           raw rest s hdup]
      exact ih s q hq
    · rw [Bool.not_eq_true] at hdup
      rw [issue_keys_cons_new hashKey now is_one_time tag issued_to expires_at
           raw rest s hdup]
      exact ih _ q (List.mem_cons_of_mem _ hq)

/-- C4: for an issuance request with `raws.length = N` generated
plaintexts, the returned sequence has length at most N; every returned
plaintext's hash is present in the store after issuance; and a unit whose
hash already exists is skipped outright — the loop neither retries it nor
appends an entry for it, proceeding with the remaining units on the very
same store. -/
theorem C4_issuance_bounds (hashKey : String → String) (now : Nat)
    (is_one_time : Bool) (tag issued_to : String) (expires_at : Option Nat)
    (raws : List String) (s : Store) :
    ((issue_keys hashKey now is_one_time tag issued_to expires_at raws s).1.length
        ≤ raws.length)
  ∧ (∀ row ∈ (issue_keys hashKey now is_one_time tag issued_to expires_at raws s).1,
       ∃ q ∈ (issue_keys hashKey now is_one_time tag issued_to
                expires_at raws s).2.records,
         q.key_hash = hashKey row.access_key)
  ∧ (∀ (raw : String) (rest : List String) (s2 : Store),
       s2.records.any (fun q => q.key_hash == hashKey raw) = true →
         issue_keys hashKey now is_one_time tag issued_to expires_at (raw :: rest) s2 =
         issue_keys hashKey now is_one_time tag issued_to expires_at rest s2) := by
  refine ⟨?_, ?_, ?_⟩
  · induction raws generalizing s with
    | nil => exact Nat.le_refl 0
    | cons raw rest ih =>
      by_cases hdup : s.records.any (fun p => p.key_hash == hashKey raw) = true
      · rw [issue_keys_cons_dup hashKey now is_one_time tag issued_to expires_at
             raw rest s hdup]
        exact Nat.le_trans (ih s) (by simp)
      · rw [Bool.not_eq_true] at hdup
        rw [issue_keys_cons_new hashKey now is_one_time tag issued_to expires_at
             raw rest s hdup]
        simpa using ih _
  · induction raws generalizing s with
    | nil => intro row hrow; exact absurd hrow (List.not_mem_nil row)
    | cons raw rest ih =>
      intro row hrow
      by_cases hdup : s.records.any (fun p => p.key_hash == hashKey raw) = true
      · rw [issue_keys_cons_dup hashKey now is_one_time tag issued_to expires_at
             raw rest s hdup] at hrow ⊢
        exact ih s row hrow
      · rw [Bool.not_eq_true] at hdup
        rw [issue_keys_cons_new hashKey now is_one_time tag issued_to expires_at
             raw rest s hdup] at hrow ⊢
        rcases List.mem_cons.mp hrow with hhd | htl
        · subst hhd
          refine ⟨{ id := s.next_id, key_hash := hashKey raw,
                    raw_hint := hintOf raw, issued_to := optText issued_to,
                    tag := optText tag, is_one_time := is_one_time,
                    issued_at := now, expires_at := expires_at, used_count := 0,
                    last_used_at := none, is_revoked := false }, ?_, rfl⟩
          exact issue_keys_mono hashKey now is_one_time tag issued_to expires_at
            rest _ _ (List.mem_cons_self _ _)
        · exact ih _ row htl
  · intro raw rest s2 hdup
    exact issue_keys_cons_dup hashKey now is_one_time tag issued_to expires_at
      raw rest s2 hdup

/-- C4 witness: issuing the plaintext of the already-stored credential of
`storeOT` hits the duplicate-hash branch, so the unit is skipped and the
batch degenerates to the remaining (empty) batch. -/
theorem C4_issuance_bounds_witness :
    issue_keys (fun t => t) 0 true "" "" none ["KEY1-AAAA-BBBB-CCCC"] storeOT =
      issue_keys (fun t => t) 0 true "" "" none [] storeOT :=
  (C4_issuance_bounds (fun t => t) 0 true "" "" none ["KEY1-AAAA-BBBB-CCCC"]
      storeOT).2.2 "KEY1-AAAA-BBBB-CCCC" [] storeOT (by decide)

theorem setRevokedFlag_self (tid : Nat) (b : Bool) (r : KeyRecord)
    (h : r.id = tid) : setRevokedFlag tid b r = { r with is_revoked := b } := by
  unfold setRevokedFlag; rw [if_pos h]

theorem find_key_hash_eq (h : String) (s : Store) (r : KeyRecord)
    (hfind : find_by_hash h s = some r) : r.key_hash = h := by
  have := List.find?_some hfind
  simpa using this

theorem find_mem (h : String) (s : Store) (r : KeyRecord)
    (hfind : find_by_hash h s = some r) : r ∈ s.records :=
  List.mem_of_find?_eq_some hfind

theorem any_id_of_mem (s : Store) (r : KeyRecord) (hmem : r ∈ s.records) :
    s.records.any (fun q => q.id == r.id) = true := by
  rw [List.any_eq_true]
  exact ⟨r, hmem, by simp⟩

/-- C5: deleting an existing credential succeeds, the admin listing no
longer contains any row with its id, and verifying its original plaintext
afterwards is rejected as `InvalidCredential` with the store untouched —
the very same outcome as verifying a plaintext whose hash was never
stored, so a deleted credential is indistinguishable from an unknown
one. -/
theorem C5_delete_indistinguishable (hashKey : String → String) (now : Nat)
    (raw : String) (s : Store) (r : KeyRecord)
    (hne : raw ≠ "") (hfind : find_by_hash (hashKey raw) s = some r)
    (hnodup : (s.records.map KeyRecord.key_hash).Nodup) :
    (operate_key r.id .Delete s).1 = .Ok
  ∧ (∀ row ∈ list_keys (operate_key r.id .Delete s).2, row.id ≠ r.id)
  ∧ verify_and_mark_usage hashKey now raw (operate_key r.id .Delete s).2 =
      (.Rejected .InvalidCredential, (operate_key r.id .Delete s).2)
  ∧ (∀ (raw2 : String) (s2 : Store), raw2 ≠ "" →
       find_by_hash (hashKey raw2) s2 = none →
       verify_and_mark_usage hashKey now raw2 s2 =
         (.Rejected .InvalidCredential, s2)) := by
  have hrmem : r ∈ s.records := find_mem _ s r hfind
  have hrhash : r.key_hash = hashKey raw := find_key_hash_eq _ s r hfind
  have hop : operate_key r.id .Delete s = (.Ok, delete_key r.id s) := by
    unfold operate_key
    rw [any_id_of_mem s r hrmem]
    rfl
  have hfind_del : find_by_hash (hashKey raw) (delete_key r.id s) = none := by
    unfold find_by_hash delete_key
    rw [List.find?_eq_none]
    intro q hq
    rw [List.mem_filter] at hq
    obtain ⟨hq1, hq2⟩ := hq
    intro hqh
    have hqh' : q.key_hash = hashKey raw := by simpa using hqh
    have hqr : q = r :=
      List.inj_on_of_nodup_map hnodup hq1 hrmem (by rw [hqh', hrhash])
    rw [hqr] at hq2
    simp at hq2
  refine ⟨by rw [hop], ?_, ?_, ?_⟩
  · intro row hrow
    rw [hop] at hrow
    unfold list_keys delete_key at hrow
    rw [List.mem_map] at hrow
    obtain ⟨q, hq, hrow⟩ := hrow
    rw [List.mem_filter] at hq
    have hqid : q.id ≠ r.id := by simpa using hq.2
    rw [← hrow]
    exact hqid
  · rw [hop]
    unfold verify_and_mark_usage
    rw [if_neg hne, hfind_del]
  · intro raw2 s2 hne2 hfind2
    unfold verify_and_mark_usage
    rw [if_neg hne2, hfind2]

/-- C5 witness: after deleting credential 1 from `storeOT`, verifying its
original plaintext is rejected as `InvalidCredential`. -/
theorem C5_delete_indistinguishable_witness :
    verify_and_mark_usage (fun t => t) 0 "KEY1-AAAA-BBBB-CCCC"
        (operate_key 1 .Delete storeOT).2 =
      (.Rejected .InvalidCredential, (operate_key 1 .Delete storeOT).2) :=
  (C5_delete_indistinguishable (fun t => t) 0 "KEY1-AAAA-BBBB-CCCC" storeOT recOT
      (by decide) (by decide) (by decide)).2.2.1

theorem set_revoked_any_id (tid tid2 : Nat) (b : Bool) (s : Store) :
    (set_revoked tid b s).records.any (fun q => q.id == tid2) =
      s.records.any (fun q => q.id == tid2) := by
  unfold set_revoked
  rw [List.any_map]
  have hp : ((fun q : KeyRecord => q.id == tid2) ∘ setRevokedFlag tid b) =
      (fun q : KeyRecord => q.id == tid2) := by
    funext q; simp [Function.comp, setRevokedFlag_id]
  rw [hp]

theorem set_revoked_set_revoked (tid : Nat) (b1 b2 : Bool) (s : Store) :
    set_revoked tid b2 (set_revoked tid b1 s) = set_revoked tid b2 s := by
  unfold set_revoked
  simp only [List.map_map]
  have hp : (setRevokedFlag tid b2 ∘ setRevokedFlag tid b1) =
      setRevokedFlag tid b2 := by
    funext q
    unfold setRevokedFlag
    by_cases h : q.id = tid <;> simp [h]
  rw [hp]

theorem operate_revoke_found (tid : Nat) (b : Bool) (s : Store)
    (hex : s.records.any (fun q => q.id == tid) = true) :
    operate_key tid (if b then .Revoke else .Reinstate) s =
      (.Ok, set_revoked tid b s) := by
  unfold operate_key
  rw [hex]
  cases b <;> rfl

/-- C6: on a credential that is not expired at the verification times and
whose usage is not exhausted, revoking succeeds and verification then
reports `Revoked`; a subsequent reinstate restores `Accepted`; revoking
twice or reinstating twice leaves exactly the store that one application
leaves; and `operate_key` on an id held by no record answers `NotFound`
and changes nothing. -/
theorem C6_revoke_reinstate (hashKey : String → String) (now now2 : Nat)
    (raw : String) (s : Store) (r : KeyRecord)
    (hne : raw ≠ "") (hfind : find_by_hash (hashKey raw) s = some r)
    (hexp2 : isExpired now2 r = false)
    (hnotex : (r.is_one_time && decide (1 ≤ r.used_count)) = false) :
    (operate_key r.id .Revoke s).1 = .Ok
  ∧ verify_and_mark_usage hashKey now raw (operate_key r.id .Revoke s).2 =
      (.Rejected .Revoked, (operate_key r.id .Revoke s).2)
  ∧ (verify_and_mark_usage hashKey now2 raw
       (operate_key r.id .Reinstate (operate_key r.id .Revoke s).2).2).1 = .Accepted
  ∧ operate_key r.id .Revoke (operate_key r.id .Revoke s).2 =
      (.Ok, (operate_key r.id .Revoke s).2)
  ∧ operate_key r.id .Reinstate (operate_key r.id .Reinstate s).2 =
      (.Ok, (operate_key r.id .Reinstate s).2)
  ∧ (∀ (tid : Nat) (act : KeyAction) (s2 : Store),
       (∀ q ∈ s2.records, q.id ≠ tid) →
       operate_key tid act s2 = (.NotFound, s2)) := by
  have hrmem : r ∈ s.records := find_mem _ s r hfind
  have hex : s.records.any (fun q => q.id == r.id) = true :=
    any_id_of_mem s r hrmem
  have hopRev : operate_key r.id .Revoke s = (.Ok, set_revoked r.id true s) :=
    operate_revoke_found r.id true s hex
  have hopRei : operate_key r.id .Reinstate s = (.Ok, set_revoked r.id false s) :=
    operate_revoke_found r.id false s hex
  have hex1 : (set_revoked r.id true s).records.any (fun q => q.id == r.id) = true := by
    rw [set_revoked_any_id]; exact hex
  have hex0 : (set_revoked r.id false s).records.any (fun q => q.id == r.id) = true := by
    rw [set_revoked_any_id]; exact hex
  have hfind1 : find_by_hash (hashKey raw) (set_revoked r.id true s) =
      some { r with is_revoked := true } := by
    rw [find_by_hash_set_revoked, hfind, Option.map_some']
    rw [setRevokedFlag_self r.id true r rfl]
  have hfind0 : find_by_hash (hashKey raw) (set_revoked r.id false s) =
      some { r with is_revoked := false } := by
    rw [find_by_hash_set_revoked, hfind, Option.map_some']
    rw [setRevokedFlag_self r.id false r rfl]
  refine ⟨by rw [hopRev], ?_, ?_, ?_, ?_, ?_⟩
  · rw [hopRev]
    unfold verify_and_mark_usage
    rw [if_neg hne]
    simp only []
    rw [hfind1]
    simp
  · rw [hopRev]
    have hopRei1 : operate_key r.id .Reinstate (set_revoked r.id true s) =
        (.Ok, set_revoked r.id false (set_revoked r.id true s)) :=
      operate_revoke_found r.id false (set_revoked r.id true s) hex1
    rw [hopRei1, set_revoked_set_revoked]
    have hacc := verify_found_accepts hashKey now2 raw (set_revoked r.id false s)
      { r with is_revoked := false } hne hfind0 rfl hexp2 hnotex
    rw [hacc]
  · rw [hopRev]
    have hopRev1 : operate_key r.id .Revoke (set_revoked r.id true s) =
        (.Ok, set_revoked r.id true (set_revoked r.id true s)) :=
      operate_revoke_found r.id true (set_revoked r.id true s) hex1
    rw [hopRev1, set_revoked_set_revoked]
  · rw [hopRei]
    have hopRei1 : operate_key r.id .Reinstate (set_revoked r.id false s) =
        (.Ok, set_revoked r.id false (set_revoked r.id false s)) :=
      operate_revoke_found r.id false (set_revoked r.id false s) hex0
    rw [hopRei1, set_revoked_set_revoked]
  · intro tid act s2 hmiss
    have hnone : s2.records.any (fun q => q.id == tid) = false := by
      rw [List.any_eq_false]
      intro q hq
      simpa using hmiss q hq
    unfold operate_key
    rw [hnone]
    rfl

/-- C6 witness: revoking then reinstating the fresh one-time credential of
`storeOT` restores acceptance of its plaintext. -/
theorem C6_revoke_reinstate_witness :
    (verify_and_mark_usage (fun t => t) 3 "KEY1-AAAA-BBBB-CCCC"
       (operate_key 1 .Reinstate (operate_key 1 .Revoke storeOT).2).2).1 =
      .Accepted :=
  (C6_revoke_reinstate (fun t => t) 0 3 "KEY1-AAAA-BBBB-CCCC" storeOT recOT
      (by decide) (by decide) rfl rfl).2.2.1

/-- C10: the administrative operations only touch what they target.
Revoke / reinstate rewrite the record list pointwise, changing nothing
but the `is_revoked` flag of the records carrying the target id and
leaving every other record equal to itself; `next_id` never moves; a
record with a different id survives every action unchanged; a record
survives deletion exactly when its id differs from the target; and a
call answered `NotFound` returns the store exactly as it was. -/
theorem C10_admin_frame (target : Nat) (s : Store) :
    ((operate_key target .Revoke s).2.records =
       s.records.map (fun q => if q.id = target then { q with is_revoked := true } else q))
  ∧ ((operate_key target .Reinstate s).2.records =
       s.records.map (fun q => if q.id = target then { q with is_revoked := false } else q))
  ∧ (∀ act, (operate_key target act s).2.next_id = s.next_id)
  ∧ (∀ act, ∀ q ∈ s.records, q.id ≠ target →
       q ∈ (operate_key target act s).2.records)
  ∧ (∀ q, q ∈ (operate_key target .Delete s).2.records ↔
       q ∈ s.records ∧ q.id ≠ target)
  ∧ (∀ act, (operate_key target act s).1 = .NotFound →
       (operate_key target act s).2 = s) := by
  by_cases hex : s.records.any (fun q => q.id == target) = true
  · have hR : operate_key target .Revoke s = (.Ok, set_revoked target true s) := by
      unfold operate_key; rw [hex]; rfl
    have hRei : operate_key target .Reinstate s = (.Ok, set_revoked target false s) := by
      unfold operate_key; rw [hex]; rfl
    have hD : operate_key target .Delete s = (.Ok, delete_key target s) := by
      unfold operate_key; rw [hex]; rfl
    refine ⟨by rw [hR]; rfl, by rw [hRei]; rfl, ?_, ?_, ?_, ?_⟩
    · intro act
      cases act
      · rw [hR]; rfl
      · rw [hRei]; rfl
      · rw [hD]; rfl
    · intro act q hq hqid
      cases act
      · rw [hR]
        exact List.mem_map.mpr ⟨q, hq, by unfold setRevokedFlag; rw [if_neg hqid]⟩
      · rw [hRei]
        exact List.mem_map.mpr ⟨q, hq, by unfold setRevokedFlag; rw [if_neg hqid]⟩
      · rw [hD]
        exact List.mem_filter.mpr ⟨hq, by simpa using hqid⟩
    · intro q
      rw [hD]
      unfold delete_key
      simp [List.mem_filter]
    · intro act h
      cases act
      · rw [hR] at h; simp at h
      · rw [hRei] at h; simp at h
      · rw [hD] at h; simp at h
  · rw [Bool.not_eq_true] at hex
    have hall : ∀ q ∈ s.records, q.id ≠ target := by
      intro q hq
      have := (List.any_eq_false.mp hex) q hq
      simpa using this
    have hNF : ∀ act, operate_key target act s = (.NotFound, s) := by
      intro act
      unfold operate_key
      rw [hex]
      rfl
    refine ⟨?_, ?_, ?_, ?_, ?_, ?_⟩
    · rw [hNF .Revoke]
      have hid : ∀ q ∈ s.records,
          (if q.id = target then { q with is_revoked := true } else q) = id q :=
        fun q hq => if_neg (hall q hq)
      rw [List.map_congr_left hid, List.map_id]
    · rw [hNF .Reinstate]
      have hid : ∀ q ∈ s.records,
          (if q.id = target then { q with is_revoked := false } else q) = id q :=
        fun q hq => if_neg (hall q hq)
      rw [List.map_congr_left hid, List.map_id]
    · intro act; rw [hNF act]
    · intro act q hq hqid; rw [hNF act]; exact hq
    · intro q
      rw [hNF .Delete]
      exact ⟨fun hq => ⟨hq, hall q hq⟩, fun hq => hq.1⟩
    · intro act h; rw [hNF act]

/-- C10 witness: asking to revoke the absent id 5 in `storeOT` is answered
`NotFound` and leaves the store exactly as it was. -/
theorem C10_admin_frame_witness :
    (operate_key 5 .Revoke storeOT).2 = storeOT :=
  (C10_admin_frame 5 storeOT).2.2.2.2.2 .Revoke (by decide)

/-- C3: the sequential function decomposes exactly into the read phase
(the `SELECT` plus all pre-update checks, writing nothing) followed by the
write phase (the usage `UPDATE` plus the one-time test against the
`used_count` fetched by the earlier `SELECT`) — first conjunct.  Because
the one-time test uses the snapshot count rather than the updated row,
interleaving two verifications of the fresh one-time credential of
`storeOT` as read-read-write-write lets both calls return `Accepted`,
violating the claimed exactly-one-`Accepted` guarantee: the
increment-and-check is not atomic. -/
theorem C3_one_time_race :
    (∀ (hashKey : String → String) (now : Nat) (raw : String) (s : Store),
       verify_and_mark_usage hashKey now raw s =
         match verify_read hashKey now raw s with
         | .inl res => (res, s)
         | .inr snap => verify_write now snap s)
  ∧ verify_read (fun t => t) 0 "KEY1-AAAA-BBBB-CCCC" storeOT =
      .inr { key_id := 1, is_one_time := true, used_count := 0 }
  ∧ (verify_write 0 { key_id := 1, is_one_time := true, used_count := 0 }
       storeOT).1 = .Accepted
  ∧ (verify_write 1 { key_id := 1, is_one_time := true, used_count := 0 }
       (verify_write 0 { key_id := 1, is_one_time := true, used_count := 0 }
         storeOT).2).1 = .Accepted := by
  refine ⟨?_, by decide, by decide, by decide⟩
  intro hashKey now raw s
  unfold verify_and_mark_usage verify_read verify_write
  by_cases h0 : raw = ""
  · simp [h0]
  · simp only [if_neg h0]
    cases hf : find_by_hash (hashKey raw) s with
    | none => rfl
    | some r =>
      by_cases hrev : r.is_revoked = true
      · simp [hrev]
      · simp only [hrev, if_false]
        by_cases hexp : isExpired now r = true
        · simp [hexp]
        · simp only [hexp, if_false]
          rfl

/-- C8 (amended): every generated plaintext is four dash-separated
four-character groups whose characters are all drawn from the alphabet of
`_generate_readable_key`; that alphabet excludes the ambiguous `I`, `O`,
`0`, `1` and contains 32 symbols (the claim's "33" is off by one). -/
theorem C8_key_format (choice : Nat → Char)
    (hc : ∀ n, choice n ∈ alphabet.toList) :
    (generate_readable_key choice).toList =
      [choice 0, choice 1, choice 2, choice 3, '-',
       choice 4, choice 5, choice 6, choice 7, '-',
       choice 8, choice 9, choice 10, choice 11, '-',
       choice 12, choice 13, choice 14, choice 15]
  ∧ (∀ n, choice n ∈ alphabet.toList ∧ choice n ≠ '-')
  ∧ alphabet.toList.length = 32
  ∧ 'I' ∉ alphabet.toList ∧ 'O' ∉ alphabet.toList
  ∧ '0' ∉ alphabet.toList ∧ '1' ∉ alphabet.toList := by
  refine ⟨rfl, ?_, by decide, by decide, by decide, by decide, by decide⟩
  intro n
  refine ⟨hc n, fun hdash => absurd (hdash ▸ hc n) (by decide)⟩

/-- C8 witness: the constant choice function drawing `A` yields the
expected 19-character dash-grouped plaintext. -/
theorem C8_key_format_witness :
    (generate_readable_key (fun _ => 'A')).toList =
      ['A', 'A', 'A', 'A', '-', 'A', 'A', 'A', 'A', '-',
       'A', 'A', 'A', 'A', '-', 'A', 'A', 'A', 'A'] :=
  (C8_key_format (fun _ => 'A') (fun _ => show 'A' ∈ alphabet.toList by decide)).1

/-- C8 counterexample: the alphabet actually used by
`_generate_readable_key` has 32 symbols, not 33 as the claim states. -/
theorem C8_key_format_counterexample :
    alphabet.toList.length = 32 ∧ ¬ alphabet.toList.length = 33 := by
  decide
